import Mathlib

/-!
# Verification of the Proxmox MCP server against its design specification

A shallow embedding of the request-normalisation, response-shaping and
pre-flight-check logic of the `proxmox_mcp` package (`src/proxmox_mcp/`),
together with proofs of the specified properties.

Conventions used throughout:
* the Proxmox hypervisor client ("Facade") is modelled as an oracle record
  holding the decoded responses the network would return; every tool
  function is embedded as a pure function from its oracle and arguments to
  a result together with the ordered list of API calls it issued;
* JSON values are modelled by the inductive type `Json` below, with object
  members kept in insertion order (Python dicts preserve it) and numbers
  modelled as integers;
* fallible tool bodies return `Except ClassifiedError _`, mirroring the
  error taxonomy of the design document.
-/

namespace ProxmoxMCP

/-- JSON values as decoded from / passed to the hypervisor client.
Object members keep their insertion order; numbers are modelled as
integers. -/
inductive Json where
  | null
  | bool (flag : Bool)
  | num (value : Int)
  | str (content : String)
  | arr (items : List Json)
  | obj (pairs : List (String × Json))

/-- Escape one character of a JSON string literal, following Python
`json.dumps`: the quote, the backslash and the common control characters
are backslash-escaped, all other characters pass through unchanged. -/
def escChar (c : Char) : List Char :=
  if c = '"' then ['\\', '"']
  else if c = '\\' then ['\\', '\\']
  else if c = '\n' then ['\\', 'n']
  else if c = '\t' then ['\\', 't']
  else if c = '\r' then ['\\', 'r']
  else [c]

/-- Escape a whole string (as a character list). -/
def escList : List Char → List Char
  | [] => []
  | c :: cs => escChar c ++ escList cs

/-- The decimal digit character for `d` (`d < 10`). -/
def digChar (d : Nat) : Char := Char.ofNat (48 + d)

/-- Decimal digits of a natural number, most significant first. -/
def natChars (n : Nat) : List Char :=
  if n < 10 then [digChar n]
  else natChars (n / 10) ++ [digChar (n % 10)]
termination_by n
decreasing_by exact Nat.div_lt_self (by omega) (by omega)

/-- Decimal representation of an integer, as `repr`/`json.dumps` print it. -/
def intChars (n : Int) : List Char :=
  if n < 0 then '-' :: natChars (-n).toNat else natChars n.toNat

mutual

/-- Serialisation of a JSON value, following Python `json.dumps` with its
default separators (`", "` between items, `": "` after keys). -/
def dumpV : Json → List Char
  | .num k => intChars k
  | .str s => '"' :: (escList s.data ++ ['"'])
  | .null => 'n' :: ['u', 'l', 'l']
  | .bool b => if b then 't' :: ['r', 'u', 'e'] else 'f' :: ['a', 'l', 's', 'e']
  | .arr xs => '[' :: (dumpA xs ++ [']'])
  | .obj kvs => '{' :: (dumpO kvs ++ ['}'])

/-- Serialisation of the element list of a JSON array. -/
def dumpA : List Json → List Char
  | [] => []
  | [x] => dumpV x
  | x :: y :: xs => dumpV x ++ ',' :: ' ' :: dumpA (y :: xs)

/-- Serialisation of the member list of a JSON object. -/
def dumpO : List (String × Json) → List Char
  | [] => []
  | [(k, v)] => '"' :: (escList k.data ++ '"' :: ':' :: ' ' :: dumpV v)
  | (k, v) :: m :: kvs =>
      '"' :: (escList k.data ++ '"' :: ':' :: ' ' :: (dumpV v ++ ',' :: ' ' :: dumpO (m :: kvs)))

end

/-- `json.dumps`, producing a `String`. -/
def Json.dumps (v : Json) : String := ⟨dumpV v⟩

/-- Decimal digit test, as a Boolean. -/
def isDigit (c : Char) : Bool := 48 ≤ c.toNat && c.toNat ≤ 57

/-- Value of a list of decimal digit characters. -/
def digitsVal (ds : List Char) : Nat := ds.foldl (fun a c => 10 * a + (c.toNat - 48)) 0

/-- Parse a maximal run of decimal digits. -/
def parseNat (cs : List Char) : Option (Nat × List Char) :=
  let ds := cs.takeWhile isDigit
  if ds.isEmpty then none else some (digitsVal ds, cs.dropWhile isDigit)

/-- Inverse of `escChar` on the character following a backslash. -/
def unescChar (e : Char) : Option Char :=
  if e = '"' then some '"'
  else if e = '\\' then some '\\'
  else if e = 'n' then some '\n'
  else if e = 't' then some '\t'
  else if e = 'r' then some '\r'
  else none

/-- Parse the body of a JSON string literal up to its closing quote. -/
def parseStrBody : List Char → Option (List Char × List Char)
  | [] => none
  | c :: rest =>
    if c = '"' then some ([], rest)
    else if c = '\\' then
      match rest with
      | [] => none
      | e :: rest2 =>
        match unescChar e with
        | some c2 => (parseStrBody rest2).map fun p => (c2 :: p.1, p.2)
        | none => none
    else (parseStrBody rest).map fun p => (c :: p.1, p.2)

mutual

/-- Fuel-indexed JSON parser (value position), the decoder used to state
the serialisation round-trip property. -/
def parseV : Nat → List Char → Option (Json × List Char)
  | 0, _ => none
  | _ + 1, [] => none
  | f + 1, c :: cs =>
    if c = 'n' then
      match cs with
      | 'u' :: 'l' :: 'l' :: rest => some (.null, rest)
      | _ => none
    else if c = 't' then
      match cs with
      | 'r' :: 'u' :: 'e' :: rest => some (.bool true, rest)
      | _ => none
    else if c = 'f' then
      match cs with
      | 'a' :: 'l' :: 's' :: 'e' :: rest => some (.bool false, rest)
      | _ => none
    else if c = '"' then
      (parseStrBody cs).map fun p => (.str ⟨p.1⟩, p.2)
    else if c = '[' then
      (parseA f cs).map fun p => (.arr p.1, p.2)
    else if c = '{' then
      (parseO f cs).map fun p => (.obj p.1, p.2)
    else if c = '-' then
      (parseNat cs).map fun p => (.num (-(p.1 : Int)), p.2)
    else
      (parseNat (c :: cs)).map fun p => (.num ((p.1 : Nat) : Int), p.2)

/-- Fuel-indexed JSON parser: array elements and closing bracket. -/
def parseA : Nat → List Char → Option (List Json × List Char)
  | 0, _ => none
  | _ + 1, [] => none
  | f + 1, c :: cs =>
    if c = ']' then some ([], cs)
    else
      match parseV f (c :: cs) with
      | none => none
      | some (x, r) =>
        match r with
        | ']' :: r2 => some ([x], r2)
        | ',' :: ' ' :: r2 => (parseA f r2).map fun p => (x :: p.1, p.2)
        | _ => none

/-- Fuel-indexed JSON parser: object members and closing brace. -/
def parseO : Nat → List Char → Option (List (String × Json) × List Char)
  | 0, _ => none
  | _ + 1, [] => none
  | f + 1, c :: cs =>
    if c = '}' then some ([], cs)
    else if c = '"' then
      match parseStrBody cs with
      | none => none
      | some (k, r) =>
        match r with
        | ':' :: ' ' :: r2 =>
          match parseV f r2 with
          | none => none
          | some (v, r3) =>
            match r3 with
            | '}' :: r4 => some ([(⟨k⟩, v)], r4)
            | ',' :: ' ' :: r4 => (parseO f r4).map fun p => ((⟨k⟩, v) :: p.1, p.2)
            | _ => none
        | _ => none
    else none

end

/-- `json.loads` specialised to the output format of `Json.dumps`: decode a
string that holds exactly one JSON value. -/
def Json.parse (s : String) : Option Json :=
  match parseV (s.data.length + 1) s.data with
  | some (v, []) => some v
  | _ => none

/-- A remainder that cannot extend a numeric literal. -/
def digitSafe : List Char → Bool
  | [] => true
  | c :: _ => !(isDigit c)

/-- HTTP verbs understood by the Hypervisor Client Facade. -/
inductive Verb where
  | get
  | post
  | put
  | delete
deriving DecidableEq

/-- One call issued to the Facade, identified by its verb and its
slash-delimited path segments (the fluent `proxmox.nodes(node)...` chains
of the source build exactly these segment lists). -/
structure ApiCall where
  verb : Verb
  path : List String
deriving DecidableEq

/-- Is this a state-changing (non-GET) Facade call? -/
def isWriteCall (c : ApiCall) : Bool :=
  match c.verb with
  | .get => false
  | _ => true

/-- The state-changing calls of a call trace, in issue order. -/
def writeCalls (cs : List ApiCall) : List ApiCall := cs.filter isWriteCall

/-- Error kinds of the design document's taxonomy. -/
inductive ErrKind where
  | notFound
  | invalidArgument
  | conflict
  | unsupported
  | remoteFailure
deriving DecidableEq

/-- Modelled from the spec: `tools/base.py` (`ProxmoxTool._handle_error`
and the error classification it applies) is not among the sources; the
design document's Error Normalizer classifies every failure into one of
the kinds above, with the message preserved. Tool embeddings below attach
the kind the spec prescribes for each failure site. -/
structure ClassifiedError where
  kind : ErrKind
  msg : String
deriving DecidableEq

/-- The error kind of a tool result, if it failed. -/
def errKind {α : Type} : Except ClassifiedError α → Option ErrKind
  | .error e => some e.kind
  | .ok _ => none

/-- One `TextContent` block of the MCP result envelope. -/
structure Content where
  type : String
  text : String
deriving DecidableEq

/-- Does `needle` occur as a contiguous sublist of `hay`? -/
def infixOf (needle : List Char) : List Char → Bool
  | [] => needle.isEmpty
  | c :: t => needle.isPrefixOf (c :: t) || infixOf needle t

/-- Substring test, as Python's `in` operator on strings. -/
def strContains (hay needle : String) : Bool := infixOf needle.data hay.data

/-- Python `str.lower`. -/
def lowerStr (s : String) : String := ⟨s.data.map Char.toLower⟩

/-- Python `str.upper`. -/
def upperStr (s : String) : String := ⟨s.data.map Char.toUpper⟩

/-- The `"does not exist" in str(e).lower() or "not found" in str(e).lower()`
test the VM tools apply to Facade failures. -/
def isNotFoundMsg (msg : String) : Bool :=
  strContains (lowerStr msg) "does not exist" || strContains (lowerStr msg) "not found"

/-- Decoded response of `GET nodes/{node}/qemu/{vmid}/status/current` as the
code reads it (`.get("status")`, `.get("name")`). -/
structure StatusResp where
  status : Option String
  name : Option String
deriving DecidableEq

/-- Facade oracle for the VM power/delete tools: the decoded responses the
hypervisor would return on each endpoint the tool may hit. -/
structure VMOracle where
  current : Except String StatusResp
  stopTask : String
  deleteTask : String
  resetTask : String

/-- `GET nodes/{node}/qemu/{vmid}/status/current`. -/
def statusCall (node vmid : String) : ApiCall :=
  ⟨.get, ["nodes", node, "qemu", vmid, "status", "current"]⟩

/-- `POST nodes/{node}/qemu/{vmid}/status/stop`. -/
def stopCall (node vmid : String) : ApiCall :=
  ⟨.post, ["nodes", node, "qemu", vmid, "status", "stop"]⟩

/-- `POST nodes/{node}/qemu/{vmid}/status/reset`. -/
def resetCall (node vmid : String) : ApiCall :=
  ⟨.post, ["nodes", node, "qemu", vmid, "status", "reset"]⟩

/-- `DELETE nodes/{node}/qemu/{vmid}`. -/
def deleteCall (node vmid : String) : ApiCall :=
  ⟨.delete, ["nodes", node, "qemu", vmid]⟩

/-- The deletion summary text `VMTools.delete_vm` composes. -/
def deleteSummary (vmid vm_name node task : String) (wasRunning : Bool) : String :=
  (if wasRunning then
    "🛑 Stopping VM " ++ vmid ++ " (" ++ vm_name ++ ") before deletion...\n"
   else
    "🗑️ Deleting VM " ++ vmid ++ " (" ++ vm_name ++ ")...\n") ++
  "🗑️ VM " ++ vmid ++ " (" ++ vm_name ++ ") deletion initiated successfully!\n\n" ++
  "⚠️ WARNING: This operation will permanently remove:\n" ++
  "  • VM configuration\n  • All virtual disks\n  • All snapshots\n  • Cannot be undone!\n\n" ++
  "🔧 Task ID: " ++ task ++ "\n\n" ++
  "✅ VM " ++ vmid ++ " (" ++ vm_name ++ ") is being deleted from node " ++ node

/-- Embedding of `VMTools.delete_vm` (`tools/vm.py`): read the current power
state; a running VM without `force` is refused before any destructive call
(the spec's Error Normalizer classifies this pre-flight state conflict as
`Conflict`); with `force` a stop is issued, then the delete. -/
def delete_vm (o : VMOracle) (node vmid : String) (force : Bool) :
    Except ClassifiedError (List Content) × List ApiCall :=
  match o.current with
  | .error msg =>
    if isNotFoundMsg msg then
      (.error ⟨.notFound, "VM " ++ vmid ++ " not found on node " ++ node⟩,
       [statusCall node vmid])
    else
      (.error ⟨.remoteFailure, msg⟩, [statusCall node vmid])
  | .ok resp =>
    let vm_name := resp.name.getD ("VM-" ++ vmid)
    if resp.status = some "running" then
      if !force then
        (.error ⟨.conflict,
          "VM " ++ vmid ++ " (" ++ vm_name ++ ") is currently running. " ++
          "Please stop it first or use force=True to stop and delete."⟩,
         [statusCall node vmid])
      else
        (.ok [⟨"text", deleteSummary vmid vm_name node o.deleteTask true⟩],
         [statusCall node vmid, stopCall node vmid, deleteCall node vmid])
    else
      (.ok [⟨"text", deleteSummary vmid vm_name node o.deleteTask false⟩],
       [statusCall node vmid, deleteCall node vmid])

/-- The warning `VMTools.reset_vm` returns for a stopped VM. -/
def resetStoppedWarning (vmid : String) : String :=
  "⚠️ Cannot reset VM " ++ vmid ++ ": VM is currently stopped\nUse start_vm to start it first"

/-- Embedding of `VMTools.reset_vm` (`tools/vm.py`): read the current power
state; if the VM is stopped, return the warning text as ordinary content
without touching the reset endpoint; otherwise post the reset. -/
def reset_vm (o : VMOracle) (node vmid : String) :
    Except ClassifiedError (List Content) × List ApiCall :=
  match o.current with
  | .error msg =>
    if isNotFoundMsg msg then
      (.error ⟨.notFound, "VM " ++ vmid ++ " not found on node " ++ node⟩,
       [statusCall node vmid])
    else
      (.error ⟨.remoteFailure, msg⟩, [statusCall node vmid])
  | .ok resp =>
    if resp.status = some "stopped" then
      (.ok [⟨"text", resetStoppedWarning vmid⟩], [statusCall node vmid])
    else
      (.ok [⟨"text", "🔄 VM " ++ vmid ++ " reset initiated successfully\nTask ID: " ++
            o.resetTask⟩],
       [statusCall node vmid, resetCall node vmid])

/-- One row of a per-node coarse `GET nodes/{node}/qemu` listing, as the code
reads it (`vm["vmid"]` plus `.get` on the optional fields). -/
structure VmCoarse where
  vmid : Json
  name : Option Json
  status : Option Json
  mem : Option Json
  maxmem : Option Json

/-- One cluster node as `get_vms` sees it.  `configFailures` records the VMs
whose per-VM detailed (config) lookup would fail; the code never issues that
lookup, so the field is deliberately unread. -/
structure NodeEntry where
  node : String
  vms : List VmCoarse
  configFailures : List String

/-- The hypervisor state a cluster-wide listing runs against. -/
structure Cluster where
  nodes : List NodeEntry

/-- `dict.get` with `None` default, under JSON encoding. -/
def optJson (o : Option Json) : Json := o.getD .null

/-- The per-VM dictionary `VMTools.get_vms` builds from one coarse row:
only coarse fields, with `"cpus"` literally `None`. -/
def vmEntry (node : String) (vm : VmCoarse) : Json :=
  .obj [("vmid", vm.vmid), ("name", optJson vm.name), ("status", optJson vm.status),
        ("node", .str node), ("cpus", .null), ("mem", optJson vm.mem),
        ("maxmem", optJson vm.maxmem)]

/-- The JSON entries of a cluster-wide listing: one per VM per node. -/
def gvEntries (c : Cluster) : List Json :=
  (c.nodes.map (fun n => n.vms.map (vmEntry n.node))).flatten

/-- Embedding of `VMTools.get_vms` (`tools/vm.py`): enumerate nodes, list
each node's VMs coarsely, and emit one JSON entry per VM built from the
coarse fields only; no per-VM config call is issued. -/
def get_vms (c : Cluster) : List Content × List ApiCall :=
  ([⟨"text", Json.dumps (.arr (gvEntries c))⟩],
   ⟨.get, ["nodes"]⟩ :: c.nodes.map (fun n => ⟨.get, ["nodes", n.node, "qemu"]⟩))

/-- The coarse part of the hypervisor state: node names with their coarse VM
rows, stripped of the detail-lookup failure information. -/
def coarseView (c : Cluster) : List (String × List VmCoarse) :=
  c.nodes.map (fun n => (n.node, n.vms))

/-- Does some per-VM detailed (config) lookup fail in this state? -/
def hasDetailFailure (c : Cluster) : Bool :=
  c.nodes.any (fun n => !n.configFailures.isEmpty)

/-- The member keys of a JSON object, in order. -/
def objKeys : Json → List String
  | .obj kvs => kvs.map (fun kv => kv.1)
  | _ => []

/-- The value of an object member, first match. -/
def objGet (j : Json) (key : String) : Option Json :=
  match j with
  | .obj kvs => (kvs.find? (fun kv => kv.1 == key)).map (fun kv => kv.2)
  | _ => none

/-- The state-changing wrapper methods of the tool modules, by name. -/
inductive WriteOp where
  | create_vm_snapshot
  | delete_vm_snapshot
  | rollback_vm_snapshot
  | clone_vm
  | migrate_vm
  | update_vm_config
  | resize_vm_disk
  | move_disk
  | import_disk
  | attach_disk
  | detach_disk
  | service_action
  | vzdump
  | create_user
  | update_user
  | delete_user
  | create_group
  | delete_group
  | create_role
  | delete_role
  | set_acl
  | create_pool
  | delete_pool
  | add_dc_rule
  | delete_dc_rule
  | ha_create_group
  | ha_add_resource
  | ha_delete_resource
  | replication_create_job
  | replication_delete_job
  | network_apply
  | delete_storage_content
  | upload_storage_content
deriving DecidableEq

/-- The envelope text each state-changing wrapper returns for the raw
hypervisor response `raw`, transcribed from the method bodies: the VM
lifecycle wrappers (`tools/vm.py`), `service_action` (`tools/admin.py`) and
`vzdump` (`tools/backups.py`) return `json.dumps({"task": result})`; the
access/pool/firewall/HA/replication/network/storage-content wrappers return
`json.dumps(result)` unwrapped. -/
def writeOpText : WriteOp → Json → String
  | .create_vm_snapshot, raw => Json.dumps (.obj [("task", raw)])
  | .delete_vm_snapshot, raw => Json.dumps (.obj [("task", raw)])
  | .rollback_vm_snapshot, raw => Json.dumps (.obj [("task", raw)])
  | .clone_vm, raw => Json.dumps (.obj [("task", raw)])
  | .migrate_vm, raw => Json.dumps (.obj [("task", raw)])
  | .update_vm_config, raw => Json.dumps (.obj [("task", raw)])
  | .resize_vm_disk, raw => Json.dumps (.obj [("task", raw)])
  | .move_disk, raw => Json.dumps (.obj [("task", raw)])
  | .import_disk, raw => Json.dumps (.obj [("task", raw)])
  | .attach_disk, raw => Json.dumps (.obj [("task", raw)])
  | .detach_disk, raw => Json.dumps (.obj [("task", raw)])
  | .service_action, raw => Json.dumps (.obj [("task", raw)])
  | .vzdump, raw => Json.dumps (.obj [("task", raw)])
  | .create_user, raw => Json.dumps raw
  | .update_user, raw => Json.dumps raw
  | .delete_user, raw => Json.dumps raw
  | .create_group, raw => Json.dumps raw
  | .delete_group, raw => Json.dumps raw
  | .create_role, raw => Json.dumps raw
  | .delete_role, raw => Json.dumps raw
  | .set_acl, raw => Json.dumps raw
  | .create_pool, raw => Json.dumps raw
  | .delete_pool, raw => Json.dumps raw
  | .add_dc_rule, raw => Json.dumps raw
  | .delete_dc_rule, raw => Json.dumps raw
  | .ha_create_group, raw => Json.dumps raw
  | .ha_add_resource, raw => Json.dumps raw
  | .ha_delete_resource, raw => Json.dumps raw
  | .replication_create_job, raw => Json.dumps raw
  | .replication_delete_job, raw => Json.dumps raw
  | .network_apply, raw => Json.dumps raw
  | .delete_storage_content, raw => Json.dumps raw
  | .upload_storage_content, raw => Json.dumps raw

/-- Which write wrappers wrap their response as `{"task": ...}`. -/
def taskWrapped : WriteOp → Bool
  | .create_vm_snapshot => true
  | .delete_vm_snapshot => true
  | .rollback_vm_snapshot => true
  | .clone_vm => true
  | .migrate_vm => true
  | .update_vm_config => true
  | .resize_vm_disk => true
  | .move_disk => true
  | .import_disk => true
  | .attach_disk => true
  | .detach_disk => true
  | .service_action => true
  | .vzdump => true
  | _ => false

/-- Facade oracle holding one decoded JSON response. -/
structure RespOracle where
  resp : Json

/-- Embedding of `StorageTools.get_storage` (`tools/storage.py`): one
`GET storage` call, response serialised verbatim into the envelope. -/
def get_storage (o : RespOracle) : List Content × List ApiCall :=
  ([⟨"text", Json.dumps o.resp⟩], [⟨.get, ["storage"]⟩])

/-- Embedding of `AccessTools.list_users` (`tools/access.py`): one
`GET access/users` call, response serialised verbatim. -/
def list_users (o : RespOracle) : List Content × List ApiCall :=
  ([⟨"text", Json.dumps o.resp⟩], [⟨.get, ["access", "users"]⟩])

/-- Embedding of `AdminTools.service_action` (`tools/admin.py`): the action
string is dispatched reflectively (`getattr(...services(service), action)`),
so every action becomes one `POST nodes/{node}/services/{service}/{action}`
and the response is task-wrapped; no action is rejected locally. -/
def service_action (o : RespOracle) (node service action : String) :
    Except ClassifiedError (List Content) × List ApiCall :=
  (.ok [⟨"text", Json.dumps (.obj [("task", o.resp)])⟩],
   [⟨.post, ["nodes", node, "services", service, action]⟩])

/-- A call issued by the generic passthrough: verb, path string and the
parameter bag that was sent. -/
structure GenCall where
  verb : Verb
  path : String
  payload : List (String × Json)

/-- Path normalisation of `GenericTools.proxmox_request` (`tools/generic.py`):
`path.lstrip("/")`, then a leading `"api2/json/"` prefix is removed. -/
def normalizePath (path : String) : String :=
  let norm : List Char := path.data.dropWhile (fun c => c == '/')
  let api : List Char := "api2/json/".data
  if api.isPrefixOf norm then ⟨norm.drop api.length⟩ else ⟨norm⟩

/-- Python `{**params, **data}`: keys of `params` in order with values
overridden by `data` on conflict, then the new keys of `data`. -/
def mergeBags (params data : List (String × Json)) : List (String × Json) :=
  (params.map fun p =>
    match data.find? (fun q => q.1 == p.1) with
    | some q => (p.1, q.2)
    | none => p) ++
  data.filter (fun q => !(params.any (fun p => p.1 == q.1)))

/-- Embedding of `GenericTools.proxmox_request` (`tools/generic.py`): reject
an empty path, normalise the path, upper-case the method, send only `params`
for GET/DELETE and the shallow merge of `params` and `data` for POST/PUT;
unknown methods are rejected before any call. The `ValueError`s are
classified `InvalidArgument` per the spec's Error Normalizer. -/
def proxmox_request (o : RespOracle) (method path : String)
    (params data : List (String × Json)) :
    Except ClassifiedError (List Content) × List GenCall :=
  if path = "" then
    (.error ⟨.invalidArgument, "path must be a non-empty string"⟩, [])
  else
    let norm := normalizePath path
    let methodUpper := upperStr method
    let writePayload := mergeBags params data
    if methodUpper = "GET" then
      (.ok [⟨"text", Json.dumps o.resp⟩], [⟨.get, norm, params⟩])
    else if methodUpper = "POST" then
      (.ok [⟨"text", Json.dumps o.resp⟩], [⟨.post, norm, writePayload⟩])
    else if methodUpper = "PUT" then
      (.ok [⟨"text", Json.dumps o.resp⟩], [⟨.put, norm, writePayload⟩])
    else if methodUpper = "DELETE" then
      (.ok [⟨"text", Json.dumps o.resp⟩], [⟨.delete, norm, params⟩])
    else
      (.error ⟨.invalidArgument, "Unsupported method. Use GET, POST, PUT or DELETE"⟩, [])

/-- The numeric ranges declared on required parameters in the tool
registrations of `server.py` (`Field(ge=..., le=...)`): `create_vm` cpus,
memory (MB) and disk_size (GB); `stop_container` and `restart_container`
timeout_seconds. -/
def declaredRanges : List (String × String × Int × Int) :=
  [("create_vm", "cpus", 1, 32),
   ("create_vm", "memory", 512, 131072),
   ("create_vm", "disk_size", 5, 1000),
   ("stop_container", "timeout_seconds", 1, 600),
   ("restart_container", "timeout_seconds", 1, 600)]

/-- Does the value supplied for `param` of operation `op` respect every
declared range for it? -/
def rangeOk (op param : String) (v : Int) : Bool :=
  declaredRanges.all fun r =>
    !(r.1 == op && r.2.1 == param) || (decide (r.2.2.1 ≤ v) && decide (v ≤ r.2.2.2))

/-- Modelled from the spec: the FastMCP/pydantic layer that enforces the
`Field(ge=..., le=...)` constraints declared in `server.py` is an external
collaborator, not among the sources.  Per the spec, parameter validation
runs before the tool body: an out-of-range value fails with
`InvalidArgument` and the Facade is never called. -/
def dispatchChecked (op : String) (args : List (String × Int))
    (body : Except ClassifiedError (List Content) × List ApiCall) :
    Except ClassifiedError (List Content) × List ApiCall :=
  if args.all (fun a => rangeOk op a.1 a.2) then body
  else (.error ⟨.invalidArgument, "parameter out of declared range"⟩, [])

/-- One row of `GET nodes/{node}/storage` as `create_vm` reads it:
`s["storage"]`, `s.get("content", "")` and `s["type"]`. -/
structure StorageEntry where
  storage : String
  content : Option String
  typ : String
deriving DecidableEq

/-- The `"images" in s.get("content", "")` test of `create_vm`. -/
def hasImages (s : StorageEntry) : Bool := strContains (s.content.getD "") "images"

/-- Storage auto-detection of `VMTools.create_vm` (`tools/vm.py`): first a
storage named `local-lvm` supporting images, then one named `vm-storage`
supporting images, then the first storage in list order supporting images. -/
def autoDetectStorage (l : List StorageEntry) : Option String :=
  match l.find? (fun s => s.storage == "local-lvm" && hasImages s) with
  | some s => some s.storage
  | none =>
    match l.find? (fun s => s.storage == "vm-storage" && hasImages s) with
    | some s => some s.storage
    | none =>
      match l.find? (fun s => hasImages s) with
      | some s => some s.storage
      | none => none

/-- Lookup in the `storage_info` dict `create_vm` builds by keyed
assignment over the storage list: the last entry with a given name wins. -/
def storageInfoGet (l : List StorageEntry) (name : String) : Option StorageEntry :=
  l.reverse.find? (fun s => s.storage == name)

/-- Facade oracle for `create_vm`: the VM-exists probe response, the node's
storage list and the creation task identifier. -/
structure CreateOracle where
  configResp : Except String Json
  storageList : List StorageEntry
  createTask : String

/-- `GET nodes/{node}/qemu/{vmid}/config` (the VM-exists probe). -/
def configGetCall (node vmid : String) : ApiCall :=
  ⟨.get, ["nodes", node, "qemu", vmid, "config"]⟩

/-- `GET nodes/{node}/storage`. -/
def storageGetCall (node : String) : ApiCall := ⟨.get, ["nodes", node, "storage"]⟩

/-- `POST nodes/{node}/qemu` (the creation call). -/
def qemuCreateCall (node : String) : ApiCall := ⟨.post, ["nodes", node, "qemu"]⟩

/-- The human-readable creation summary `create_vm` composes (structure kept;
the exact prose is immaterial to the claims). -/
def createSummary (vmid name node storage fmt styp ostype task : String) : String :=
  "🎉 VM " ++ vmid ++ " created successfully!\n\n📋 VM Configuration:\n" ++
  "  • Name: " ++ name ++ "\n  • Node: " ++ node ++ "\n  • VM ID: " ++ vmid ++ "\n" ++
  "  • Disk: " ++ storage ++ ", " ++ fmt ++ " format\n" ++
  "  • Storage Type: " ++ styp ++ "\n  • OS Type: " ++ ostype ++ "\n\n" ++
  "🔧 Task ID: " ++ task

/-- Embedding of `VMTools.create_vm` (`tools/vm.py`), from the VM-exists
probe through storage resolution, validation, format selection and the
creation call.  `ValueError`s are classified per the spec's Error
Normalizer (`already exists` is a pre-flight state conflict). -/
def create_vm (o : CreateOracle) (node vmid name : String)
    (storage : Option String) (ostype : Option String) :
    Except ClassifiedError (List Content) × List ApiCall :=
  match o.configResp with
  | .ok _ =>
    (.error ⟨.conflict, "VM " ++ vmid ++ " already exists on node " ++ node⟩,
     [configGetCall node vmid])
  | .error msg =>
    if !(strContains (lowerStr msg) "does not exist") then
      (.error ⟨.remoteFailure, msg⟩, [configGetCall node vmid])
    else
      let calls0 := [configGetCall node vmid, storageGetCall node]
      let chosen := match storage with
        | some s => some s
        | none => autoDetectStorage o.storageList
      match chosen with
      | none =>
        (.error ⟨.invalidArgument, "No suitable storage found for VM images"⟩, calls0)
      | some st =>
        match storageInfoGet o.storageList st with
        | none =>
          (.error ⟨.invalidArgument,
            "Storage '" ++ st ++ "' not found on node " ++ node⟩, calls0)
        | some entry =>
          if !(hasImages entry) then
            (.error ⟨.invalidArgument,
              "Storage '" ++ st ++ "' does not support VM images"⟩, calls0)
          else
            let fmt :=
              if entry.typ = "lvm" ∨ entry.typ = "lvmthin" then "raw"
              else if entry.typ = "dir" ∨ entry.typ = "nfs" ∨ entry.typ = "cifs" then "qcow2"
              else "raw"
            let os := ostype.getD "l26"
            (.ok [⟨"text", createSummary vmid name node st fmt entry.typ os o.createTask⟩],
             calls0 ++ [qemuCreateCall node])

/-- Fixture: oracle for a VM reporting status `running`. -/
def oRunVM : VMOracle := ⟨.ok ⟨some "running", some "web"⟩, "T-stop", "T-del", "T-reset"⟩

/-- Fixture: oracle for a VM reporting status `stopped`. -/
def oStopVM : VMOracle := ⟨.ok ⟨some "stopped", some "web"⟩, "T-stop", "T-del", "T-reset"⟩

/-- Fixture: a generic JSON response oracle. -/
def oResp : RespOracle := ⟨.obj [("upid", .str "UPID:pve:0000ABCD:")]⟩

/-- Fixture: a cluster with one node, one VM and a failing per-VM detail
lookup recorded for that VM. -/
def cFail : Cluster :=
  ⟨[⟨"pve", [⟨.num 100, some (.str "web"), some (.str "running"), none, none⟩], ["100"]⟩]⟩

/-- Fixture: a creation oracle whose VM-exists probe failed with
"does not exist" and whose node has no image-capable storage. -/
def oCreateNoImages : CreateOracle :=
  ⟨.error "Configuration file 'nodes/pve/qemu-server/200.conf' does not exist",
   [⟨"backup-nfs", some "backup,iso", "nfs"⟩], "T-create"⟩

end ProxmoxMCP

namespace ProxmoxMCP

theorem digChar_spec (d : Nat) (h : d < 10) :
    isDigit (digChar d) = true ∧ (digChar d).toNat = 48 + d := by
  interval_cases d <;> exact ⟨by decide, by decide⟩

theorem natChars_ne_nil (n : Nat) : natChars n ≠ [] := by
  rw [natChars]
  split <;> simp

theorem natChars_digits (n : Nat) : ∀ c ∈ natChars n, isDigit c = true := by
  induction n using Nat.strong_induction_on with
  | _ n ih =>
    rw [natChars]
    split
    · intro c hc
      rw [List.mem_singleton] at hc
      subst hc
      exact (digChar_spec n (by omega)).1
    · intro c hc
      rw [List.mem_append] at hc
      rcases hc with h1 | h2
      · exact ih (n / 10) (Nat.div_lt_self (by omega) (by omega)) c h1
      · rw [List.mem_singleton] at h2
        subst h2
        exact (digChar_spec (n % 10) (Nat.mod_lt _ (by omega))).1

theorem digitsVal_natChars (n : Nat) : digitsVal (natChars n) = n := by
  induction n using Nat.strong_induction_on with
  | _ n ih =>
    rw [natChars]
    split
    · simp [digitsVal, (digChar_spec n (by omega)).2]
    · have hd := ih (n / 10) (Nat.div_lt_self (by omega) (by omega))
      simp only [digitsVal, List.foldl_append, List.foldl_cons, List.foldl_nil]
      rw [show (natChars (n / 10)).foldl (fun a c => 10 * a + (c.toNat - 48)) 0 = n / 10 from hd]
      rw [(digChar_spec (n % 10) (Nat.mod_lt _ (by omega))).2]
      omega

theorem takeWhile_append_all {p : Char → Bool} {l r : List Char}
    (h : ∀ c ∈ l, p c = true) :
    (l ++ r).takeWhile p = l ++ r.takeWhile p := by
  induction l with
  | nil => simp
  | cons c cs ih =>
    simp [List.cons_append, List.takeWhile_cons, h c (by simp),
      ih (fun x hx => h x (by simp [hx]))]

theorem dropWhile_append_all {p : Char → Bool} {l r : List Char}
    (h : ∀ c ∈ l, p c = true) :
    (l ++ r).dropWhile p = r.dropWhile p := by
  induction l with
  | nil => simp
  | cons c cs ih =>
    simp only [List.cons_append, List.dropWhile_cons, h c (by simp)]
    exact ih (fun x hx => h x (by simp [hx]))

theorem parseNat_natChars (m : Nat) (rest : List Char) (hs : digitSafe rest = true) :
    parseNat (natChars m ++ rest) = some (m, rest) := by
  have hall := natChars_digits m
  have ht2 : rest.takeWhile isDigit = [] := by
    cases rest with
    | nil => simp
    | cons c cs =>
      simp only [digitSafe, Bool.not_eq_true'] at hs
      simp [List.takeWhile_cons, hs]
  have hd2 : rest.dropWhile isDigit = rest := by
    cases rest with
    | nil => simp
    | cons c cs =>
      simp only [digitSafe, Bool.not_eq_true'] at hs
      simp [List.dropWhile_cons, hs]
  have hne := natChars_ne_nil m
  simp only [parseNat, takeWhile_append_all hall, dropWhile_append_all hall, ht2, hd2,
    List.append_nil]
  rw [if_neg (by simpa [List.isEmpty_iff] using hne)]
  rw [digitsVal_natChars]

theorem parseStrBody_quote (rest : List Char) :
    parseStrBody ('"' :: rest) = some ([], rest) := by
  rw [parseStrBody.eq_def]
  simp

theorem parseStrBody_escaped (e c2 : Char) (rest : List Char) (he : unescChar e = some c2) :
    parseStrBody ('\\' :: e :: rest) = (parseStrBody rest).map fun p => (c2 :: p.1, p.2) := by
  rw [parseStrBody.eq_def]
  simp [he]

theorem parseStrBody_lit (c : Char) (rest : List Char) (h1 : c ≠ '"') (h2 : c ≠ '\\') :
    parseStrBody (c :: rest) = (parseStrBody rest).map fun p => (c :: p.1, p.2) := by
  rw [parseStrBody.eq_def]
  simp [h1, h2]

theorem parseStrBody_esc (s : List Char) (rest : List Char) :
    parseStrBody (escList s ++ '"' :: rest) = some (s, rest) := by
  induction s with
  | nil => simpa [escList] using parseStrBody_quote rest
  | cons c cs ih =>
    by_cases h1 : c = '"'
    · subst h1
      have e : escChar '"' = ['\\', '"'] := by decide
      simp only [escList, e, List.cons_append, List.nil_append, List.append_assoc]
      rw [parseStrBody_escaped '"' '"' (escList cs ++ '"' :: rest) (by decide), ih]
      rfl
    · by_cases h2 : c = '\\'
      · subst h2
        have e : escChar '\\' = ['\\', '\\'] := by decide
        simp only [escList, e, List.cons_append, List.nil_append, List.append_assoc]
        rw [parseStrBody_escaped '\\' '\\' (escList cs ++ '"' :: rest) (by decide), ih]
        rfl
      · by_cases h3 : c = '\n'
        · subst h3
          have e : escChar '\n' = ['\\', 'n'] := by decide
          simp only [escList, e, List.cons_append, List.nil_append, List.append_assoc]
          rw [parseStrBody_escaped 'n' '\n' (escList cs ++ '"' :: rest) (by decide), ih]
          rfl
        · by_cases h4 : c = '\t'
          · subst h4
            have e : escChar '\t' = ['\\', 't'] := by decide
            simp only [escList, e, List.cons_append, List.nil_append, List.append_assoc]
            rw [parseStrBody_escaped 't' '\t' (escList cs ++ '"' :: rest) (by decide), ih]
            rfl
          · by_cases h5 : c = '\r'
            · subst h5
              have e : escChar '\r' = ['\\', 'r'] := by decide
              simp only [escList, e, List.cons_append, List.nil_append, List.append_assoc]
              rw [parseStrBody_escaped 'r' '\r' (escList cs ++ '"' :: rest) (by decide), ih]
              rfl
            · have e : escChar c = [c] := by
                simp [escChar, h1, h2, h3, h4, h5]
              simp only [escList, e, List.cons_append, List.nil_append, List.append_assoc]
              rw [parseStrBody_lit c _ h1 h2, ih]
              rfl

theorem strMk_data (s : String) : String.mk s.data = s := by
  cases s
  rfl

theorem isDigit_ne_special {d : Char} (h : isDigit d = true) :
    d ≠ '-' ∧ d ≠ ']' ∧ d ≠ '}' ∧
      d ≠ 'n' ∧ d ≠ 't' ∧ d ≠ 'f' ∧ d ≠ '"' ∧ d ≠ '[' ∧ d ≠ '{' := by
  refine ⟨?_, ?_, ?_, ?_, ?_, ?_, ?_, ?_, ?_⟩ <;>
    exact fun he => absurd (he ▸ h) (by decide)

theorem natChars_head {m : Nat} {c : Char} {cs : List Char} (h : natChars m = c :: cs) :
    isDigit c = true :=
  natChars_digits m c (by rw [h]; exact List.mem_cons_self c cs)

theorem dumpV_ne_nil (v : Json) : dumpV v ≠ [] := by
  cases v with
  | null => simp [dumpV]
  | bool b => cases b <;> simp [dumpV]
  | num n =>
    simp only [dumpV, intChars]
    split
    · simp
    · exact natChars_ne_nil _
  | str s => simp [dumpV]
  | arr xs => simp [dumpV]
  | obj kvs => simp [dumpV]

theorem dumpV_head_ne {v : Json} {c : Char} {cs : List Char} (h : dumpV v = c :: cs) :
    c ≠ ']' ∧ c ≠ '}' := by
  cases v with
  | null =>
    simp only [dumpV, List.cons.injEq] at h
    obtain ⟨rfl, -⟩ := h
    exact ⟨by decide, by decide⟩
  | bool b =>
    cases b <;>
      · simp only [dumpV, List.cons.injEq] at h
        obtain ⟨rfl, -⟩ := h
        exact ⟨by decide, by decide⟩
  | num n =>
    simp only [dumpV, intChars] at h
    split at h
    · simp only [List.cons.injEq] at h
      obtain ⟨rfl, -⟩ := h
      exact ⟨by decide, by decide⟩
    · have hd := isDigit_ne_special (natChars_head h)
      exact ⟨hd.2.1, hd.2.2.1⟩
  | str s =>
    simp only [dumpV, List.cons.injEq] at h
    obtain ⟨rfl, -⟩ := h
    exact ⟨by decide, by decide⟩
  | arr xs =>
    simp only [dumpV, List.cons.injEq] at h
    obtain ⟨rfl, -⟩ := h
    exact ⟨by decide, by decide⟩
  | obj kvs =>
    simp only [dumpV, List.cons.injEq] at h
    obtain ⟨rfl, -⟩ := h
    exact ⟨by decide, by decide⟩

theorem parse_dump_aux (f : Nat) :
    (∀ v rest, (dumpV v).length < f → digitSafe rest = true →
       parseV f (dumpV v ++ rest) = some (v, rest)) ∧
    (∀ xs rest, (dumpA xs).length + 1 < f →
       parseA f (dumpA xs ++ ']' :: rest) = some (xs, rest)) ∧
    (∀ kvs rest, (dumpO kvs).length + 1 < f →
       parseO f (dumpO kvs ++ '}' :: rest) = some (kvs, rest)) := by
  induction f using Nat.strong_induction_on with
  | _ f ih =>
  match f with
  | 0 =>
    exact ⟨fun v rest h _ => absurd h (by omega), fun xs rest h => absurd h (by omega),
      fun kvs rest h => absurd h (by omega)⟩
  | f + 1 =>
  obtain ⟨P, Q, R⟩ := ih f (Nat.lt_succ_self f)
  refine ⟨?_, ?_, ?_⟩
  · intro v rest hlen hsafe
    cases v with
    | null =>
      have hshape : dumpV .null ++ rest = 'n' :: 'u' :: 'l' :: 'l' :: rest := by
        simp [dumpV]
      rw [hshape, parseV.eq_def]
      simp
    | bool b =>
      cases b with
      | true =>
        have hshape : dumpV (.bool true) ++ rest = 't' :: 'r' :: 'u' :: 'e' :: rest := by
          simp [dumpV]
        rw [hshape, parseV.eq_def]
        simp
      | false =>
        have hshape : dumpV (.bool false) ++ rest = 'f' :: 'a' :: 'l' :: 's' :: 'e' :: rest := by
          simp [dumpV]
        rw [hshape, parseV.eq_def]
        simp
    | num n =>
      by_cases hn : n < 0
      · have hshape : dumpV (.num n) ++ rest = '-' :: (natChars (-n).toNat ++ rest) := by
          simp [dumpV, intChars, if_pos hn]
        rw [hshape, parseV.eq_def]
        simp only []
        rw [if_neg (by decide : ¬('-' = 'n')), if_neg (by decide : ¬('-' = 't')),
          if_neg (by decide : ¬('-' = 'f')), if_neg (by decide : ¬('-' = '"')),
          if_neg (by decide : ¬('-' = '[')), if_neg (by decide : ¬('-' = '{')), if_true]
        rw [parseNat_natChars _ _ hsafe]
        have h2 : (((-n).toNat : Int)) = -n := Int.toNat_of_nonneg (by omega)
        simp [h2]
      · have hshape : dumpV (.num n) = natChars n.toNat := by
          simp [dumpV, intChars, if_neg hn]
        obtain ⟨c, cs', hc⟩ := List.exists_cons_of_ne_nil (natChars_ne_nil n.toNat)
        have hne := isDigit_ne_special (natChars_head hc)
        have hback : c :: (cs' ++ rest) = natChars n.toNat ++ rest := by
          rw [hc, List.cons_append]
        obtain ⟨hmm, hrb, hcb, hn, ht, hf, hq, hlb, hob⟩ := hne
        rw [hshape, hc, List.cons_append, parseV.eq_def]
        simp only []
        rw [if_neg hn, if_neg ht, if_neg hf, if_neg hq, if_neg hlb, if_neg hob,
          if_neg hmm]
        rw [hback, parseNat_natChars _ _ hsafe]
        have h2 : ((n.toNat : Int)) = n := Int.toNat_of_nonneg (by omega)
        simp [h2]
    | str s =>
      have hshape : dumpV (.str s) ++ rest = '"' :: (escList s.data ++ '"' :: rest) := by
        simp [dumpV]
      rw [hshape, parseV.eq_def]
      simp [parseStrBody_esc, strMk_data]
    | arr xs =>
      have hlen' : (dumpA xs).length + 1 < f := by
        have : (dumpV (.arr xs)).length = (dumpA xs).length + 2 := by
          simp [dumpV]
        omega
      have hshape : dumpV (.arr xs) ++ rest = '[' :: (dumpA xs ++ ']' :: rest) := by
        simp [dumpV]
      rw [hshape, parseV.eq_def]
      simp [Q xs rest hlen']
    | obj kvs =>
      have hlen' : (dumpO kvs).length + 1 < f := by
        have : (dumpV (.obj kvs)).length = (dumpO kvs).length + 2 := by
          simp [dumpV]
        omega
      have hshape : dumpV (.obj kvs) ++ rest = '{' :: (dumpO kvs ++ '}' :: rest) := by
        simp [dumpV]
      rw [hshape, parseV.eq_def]
      simp [R kvs rest hlen']
  · intro xs rest hlen
    cases xs with
    | nil =>
      have hshape : dumpA ([] : List Json) ++ ']' :: rest = ']' :: rest := by
        simp [dumpA]
      rw [hshape, parseA.eq_def]
      simp
    | cons x xs' =>
      cases xs' with
      | nil =>
        obtain ⟨c, cs', hc⟩ := List.exists_cons_of_ne_nil (dumpV_ne_nil x)
        have hne := dumpV_head_ne hc
        have hlx : (dumpV x).length < f := by
          have : dumpA [x] = dumpV x := by simp [dumpA]
          rw [this] at hlen
          omega
        have hshape : dumpA [x] ++ ']' :: rest = c :: (cs' ++ ']' :: rest) := by
          have : dumpA [x] = dumpV x := by simp [dumpA]
          rw [this, hc, List.cons_append]
        have hpv : parseV f (c :: (cs' ++ ']' :: rest)) = some (x, ']' :: rest) := by
          rw [show c :: (cs' ++ ']' :: rest) = dumpV x ++ ']' :: rest by
            rw [hc, List.cons_append]]
          exact P x (']' :: rest) hlx (by simp only [digitSafe]; decide)
        rw [hshape, parseA.eq_def]
        simp [hne.1, hpv]
      | cons y xs'' =>
        obtain ⟨c, cs', hc⟩ := List.exists_cons_of_ne_nil (dumpV_ne_nil x)
        have hne := dumpV_head_ne hc
        have hAlen : (dumpA (x :: y :: xs'')).length =
            (dumpV x).length + 2 + (dumpA (y :: xs'')).length := by
          simp [dumpA]
          omega
        have hvpos : 0 < (dumpV x).length := List.length_pos.mpr (dumpV_ne_nil x)
        have hlx : (dumpV x).length < f := by omega
        have hrec : (dumpA (y :: xs'')).length + 1 < f := by omega
        have hshape : dumpA (x :: y :: xs'') ++ ']' :: rest =
            c :: (cs' ++ (',' :: ' ' :: (dumpA (y :: xs'') ++ ']' :: rest))) := by
          have : dumpA (x :: y :: xs'') = dumpV x ++ ',' :: ' ' :: dumpA (y :: xs'') := by
            simp [dumpA]
          rw [this, hc]
          simp [List.append_assoc]
        have hpv : parseV f (c :: (cs' ++ (',' :: ' ' :: (dumpA (y :: xs'') ++ ']' :: rest)))) =
            some (x, ',' :: ' ' :: (dumpA (y :: xs'') ++ ']' :: rest)) := by
          rw [show c :: (cs' ++ (',' :: ' ' :: (dumpA (y :: xs'') ++ ']' :: rest))) =
              dumpV x ++ (',' :: ' ' :: (dumpA (y :: xs'') ++ ']' :: rest)) by
            rw [hc, List.cons_append]]
          exact P x _ hlx (by simp only [digitSafe]; decide)
        rw [hshape, parseA.eq_def]
        simp [hne.1, hpv, Q (y :: xs'') rest hrec]
  · intro kvs rest hlen
    cases kvs with
    | nil =>
      have hshape : dumpO ([] : List (String × Json)) ++ '}' :: rest = '}' :: rest := by
        simp [dumpO]
      rw [hshape, parseO.eq_def]
      simp
    | cons kv kvs' =>
      obtain ⟨k, v⟩ := kv
      cases kvs' with
      | nil =>
        have hOlen : (dumpO [(k, v)]).length =
            (escList k.data).length + 4 + (dumpV v).length := by
          simp [dumpO]
          omega
        have hlv : (dumpV v).length < f := by omega
        have hshape : dumpO [(k, v)] ++ '}' :: rest =
            '"' :: (escList k.data ++ '"' :: (':' :: ' ' :: (dumpV v ++ '}' :: rest))) := by
          simp [dumpO, List.append_assoc]
        have hpv : parseV f (dumpV v ++ '}' :: rest) = some (v, '}' :: rest) :=
          P v _ hlv (by simp only [digitSafe]; decide)
        rw [hshape, parseO.eq_def]
        simp [parseStrBody_esc, hpv, strMk_data]
      | cons kv2 kvs'' =>
        have hOlen : (dumpO ((k, v) :: kv2 :: kvs'')).length =
            (escList k.data).length + 6 + (dumpV v).length + (dumpO (kv2 :: kvs'')).length := by
          simp [dumpO]
          omega
        have hvpos : 0 < (dumpV v).length := List.length_pos.mpr (dumpV_ne_nil v)
        have hlv : (dumpV v).length < f := by omega
        have hrec : (dumpO (kv2 :: kvs'')).length + 1 < f := by omega
        have hshape : dumpO ((k, v) :: kv2 :: kvs'') ++ '}' :: rest =
            '"' :: (escList k.data ++ '"' :: (':' :: ' ' ::
              (dumpV v ++ ',' :: ' ' :: (dumpO (kv2 :: kvs'') ++ '}' :: rest)))) := by
          simp [dumpO, List.append_assoc]
        have hpv : parseV f (dumpV v ++ ',' :: ' ' :: (dumpO (kv2 :: kvs'') ++ '}' :: rest)) =
            some (v, ',' :: ' ' :: (dumpO (kv2 :: kvs'') ++ '}' :: rest)) :=
          P v _ hlv (by simp only [digitSafe]; decide)
        rw [hshape, parseO.eq_def]
        simp [parseStrBody_esc, hpv, R (kv2 :: kvs'') rest hrec, strMk_data]

/-- Decoding inverts serialisation: `json.loads (json.dumps v) = v`. -/
theorem Json.parse_dumps (v : Json) : Json.parse (Json.dumps v) = some v := by
  have h := (parse_dump_aux ((dumpV v).length + 1)).1 v [] (by omega) rfl
  rw [List.append_nil] at h
  simp [Json.parse, Json.dumps, h]

/-- Serialisation is injective: no information is lost by `json.dumps`. -/
theorem Json.dumps_inj {a b : Json} (h : Json.dumps a = Json.dumps b) : a = b := by
  have ha := Json.parse_dumps a
  have hb := Json.parse_dumps b
  rw [h, hb] at ha
  exact (Option.some_inj.mp ha).symm

theorem json_ne_selfwrap (r : Json) : r ≠ Json.obj [("task", r)] := by
  intro h
  have h2 := congrArg sizeOf h
  simp at h2
  omega

/-- C1: on a VM reported as running, `delete_vm` with `force=false` fails
with a Conflict-classified error while issuing no destructive (stop or
delete) call; with `force=true` it issues exactly one stop call followed by
exactly one delete call, in that order. -/
theorem C1_delete_vm_running (o : VMOracle) (node vmid : String) (resp : StatusResp)
    (hcur : o.current = .ok resp) (hrun : resp.status = some "running") :
    (errKind (delete_vm o node vmid false).1 = some .conflict ∧
     writeCalls (delete_vm o node vmid false).2 = []) ∧
    writeCalls (delete_vm o node vmid true).2 = [stopCall node vmid, deleteCall node vmid] := by
  refine ⟨⟨?_, ?_⟩, ?_⟩ <;>
    simp [delete_vm, hcur, hrun, errKind, writeCalls, isWriteCall, List.filter,
      statusCall, stopCall, deleteCall]

theorem C1_witness :
    oRunVM.current = .ok ⟨some "running", some "web"⟩ ∧
    ((errKind (delete_vm oRunVM "pve" "100" false).1 = some .conflict ∧
      writeCalls (delete_vm oRunVM "pve" "100" false).2 = []) ∧
     writeCalls (delete_vm oRunVM "pve" "100" true).2 =
       [stopCall "pve" "100", deleteCall "pve" "100"]) :=
  ⟨rfl, C1_delete_vm_running oRunVM "pve" "100" ⟨some "running", some "web"⟩ rfl rfl⟩

/-- C2 counterexample: on a VM reporting status `stopped`, `reset_vm`
returns ordinary (ok) content — its error kind is `none`, not `Conflict` —
refuting the claim that it returns Conflict; it does issue zero write
calls. -/
theorem C2_counterexample :
    oStopVM.current = .ok ⟨some "stopped", some "web"⟩ ∧
    errKind (reset_vm oStopVM "pve" "100").1 = none ∧
    ¬ errKind (reset_vm oStopVM "pve" "100").1 = some .conflict ∧
    writeCalls (reset_vm oStopVM "pve" "100").2 = [] := by
  refine ⟨rfl, rfl, ?_, rfl⟩
  intro h
  simp [reset_vm, oStopVM, errKind] at h

/-- C2 (amended): `reset_vm` on a VM reporting status `stopped` refuses the
reset — the reset endpoint is never invoked and zero write calls are made —
but the refusal is delivered as an informational warning content block, not
as a Conflict error. -/
theorem C2_reset_vm_stopped (o : VMOracle) (node vmid : String) (resp : StatusResp)
    (hcur : o.current = .ok resp) (hstop : resp.status = some "stopped") :
    (reset_vm o node vmid).1 = .ok [⟨"text", resetStoppedWarning vmid⟩] ∧
    (reset_vm o node vmid).2 = [statusCall node vmid] ∧
    writeCalls (reset_vm o node vmid).2 = [] := by
  refine ⟨?_, ?_, ?_⟩ <;>
    simp [reset_vm, hcur, hstop, writeCalls, isWriteCall, List.filter, statusCall]

theorem C2_witness :
    oStopVM.current = .ok ⟨some "stopped", some "web"⟩ ∧
    ((reset_vm oStopVM "pve" "100").1 = .ok [⟨"text", resetStoppedWarning "100"⟩] ∧
     (reset_vm oStopVM "pve" "100").2 = [statusCall "pve" "100"] ∧
     writeCalls (reset_vm oStopVM "pve" "100").2 = []) :=
  ⟨rfl, C2_reset_vm_stopped oStopVM "pve" "100" ⟨some "stopped", some "web"⟩ rfl rfl⟩

/-- C7 counterexample: the action string `"disable"` is not one of
start/stop/restart, yet `service_action` does not reject it as Unsupported:
it reflectively issues the POST to the `disable` subpath and returns an ok
envelope. -/
theorem C7_counterexample :
    (service_action oResp "pve" "pveproxy" "disable").2 =
      [⟨.post, ["nodes", "pve", "services", "pveproxy", "disable"]⟩] ∧
    errKind (service_action oResp "pve" "pveproxy" "disable").1 = none := ⟨rfl, rfl⟩

/-- C7 (amended): `service_action` dispatches reflectively: for every action
string it issues exactly one POST to `nodes/{node}/services/{service}/{action}`
and task-wraps the response; no action string is rejected locally, so the
supported actions start/stop/restart reach their subpaths and unknown
actions are proxied rather than refused as Unsupported. -/
theorem C7_service_action_reflective (o : RespOracle) (node service action : String) :
    (service_action o node service action).2 =
      [⟨.post, ["nodes", node, "services", service, action]⟩] ∧
    (service_action o node service action).1 =
      .ok [⟨"text", Json.dumps (.obj [("task", o.resp)])⟩] ∧
    ∀ e, (service_action o node service action).1 ≠ .error e := by
  refine ⟨rfl, rfl, fun e h => ?_⟩
  simp [service_action] at h

theorem C7_witness :
    (service_action oResp "pve" "pveproxy" "start").2 =
      [⟨.post, ["nodes", "pve", "services", "pveproxy", "start"]⟩] :=
  (C7_service_action_reflective oResp "pve" "pveproxy" "start").1

theorem isPrefixOf_append_self (l r : List Char) : l.isPrefixOf (l ++ r) = true := by
  induction l with
  | nil => simp [List.isPrefixOf]
  | cons c cs ih => simp [List.isPrefixOf, ih]

/-- C5: the generic passthrough normalises the path by stripping all leading
slashes and then one leading `api2/json/` prefix before calling the Facade;
in particular `/api2/json/nodes` normalises to exactly `nodes`. -/
theorem C5_proxmox_request_normalizes (o : RespOracle) (path : String)
    (params data : List (String × Json)) (hp : path ≠ "") :
    (proxmox_request o "GET" path params data).2 = [⟨.get, normalizePath path, params⟩] ∧
    (∀ p : String, normalizePath ("/" ++ p) = normalizePath p) ∧
    (∀ p : String, normalizePath ("api2/json/" ++ p) = p) ∧
    normalizePath "/api2/json/nodes" = "nodes" := by
  refine ⟨?_, ?_, ?_, by decide⟩
  · have hm : upperStr "GET" = "GET" := rfl
    simp [proxmox_request, hp, hm]
  · intro p
    have hd : ("/" ++ p).data = '/' :: p.data := by
      simp [String.data_append]
    simp [normalizePath, hd, List.dropWhile_cons]
  · intro p
    have hd : ("api2/json/" ++ p).data = "api2/json/".data ++ p.data := String.data_append _ _
    have hw : ("api2/json/".data ++ p.data).dropWhile (fun c => c == '/') =
        "api2/json/".data ++ p.data := by
      rw [show ("api2/json/".data ++ p.data) = 'a' :: ("pi2/json/".data ++ p.data) from rfl]
      rw [List.dropWhile_cons]
      simp
    simp only [normalizePath, hd, hw, isPrefixOf_append_self, if_true]
    rw [List.drop_left]

theorem C5_witness :
    ("/api2/json/nodes" : String) ≠ "" ∧
    (proxmox_request oResp "GET" "/api2/json/nodes" [] []).2 =
      [⟨.get, normalizePath "/api2/json/nodes", []⟩] ∧
    normalizePath "/api2/json/nodes" = "nodes" :=
  ⟨by decide,
   (C5_proxmox_request_normalizes oResp "/api2/json/nodes" [] [] (by decide)).1,
   (C5_proxmox_request_normalizes oResp "/api2/json/nodes" [] [] (by decide)).2.2.2⟩

/-- C6: an argument outside a range declared in the `server.py` tool
registrations (create_vm cpus 1–32, memory 512–131072, disk_size 5–1000;
stop_container/restart_container timeout_seconds 1–600) fails with
InvalidArgument before the tool body runs, so no Facade call is issued. -/
theorem C6_range_validation (op param : String) (lo hi v : Int)
    (args : List (String × Int))
    (body : Except ClassifiedError (List Content) × List ApiCall)
    (hdecl : (op, param, lo, hi) ∈ declaredRanges)
    (harg : (param, v) ∈ args)
    (hout : v < lo ∨ hi < v) :
    dispatchChecked op args body =
      (.error ⟨.invalidArgument, "parameter out of declared range"⟩, []) := by
  have h1 : rangeOk op param v = false := by
    by_contra hc
    rw [Bool.not_eq_false, rangeOk, List.all_eq_true] at hc
    have h2 := hc _ hdecl
    simp at h2
    omega
  have h2 : args.all (fun a => rangeOk op a.1 a.2) = false := by
    by_contra hc
    rw [Bool.not_eq_false, List.all_eq_true] at hc
    have h3 := hc _ harg
    rw [h1] at h3
    exact absurd h3 (by simp)
  simp [dispatchChecked, h2]

theorem C6_witness :
    ("create_vm", "cpus", (1 : Int), (32 : Int)) ∈ declaredRanges ∧
    ("cpus", (0 : Int)) ∈ [("cpus", (0 : Int))] ∧
    ((0 : Int) < 1 ∨ (32 : Int) < 0) ∧
    dispatchChecked "create_vm" [("cpus", (0 : Int))] (.ok [], []) =
      (.error ⟨.invalidArgument, "parameter out of declared range"⟩, []) :=
  ⟨by decide, by decide, Or.inl (by decide),
   C6_range_validation "create_vm" "cpus" 1 32 0 [("cpus", 0)] (.ok [], [])
     (by decide) (by decide) (Or.inl (by decide))⟩

/-- C10: `get_vms` issues only read calls — the node enumeration followed by
one coarse qemu listing per node, never a per-VM config call — and every
entry of the returned listing carries the literal JSON null for `cpus`. -/
theorem C10_get_vms_reads_only (c : Cluster) :
    (get_vms c).2 =
      ⟨.get, ["nodes"]⟩ :: c.nodes.map (fun n => ⟨.get, ["nodes", n.node, "qemu"]⟩) ∧
    writeCalls (get_vms c).2 = [] ∧
    (∀ e ∈ gvEntries c, objGet e "cpus" = some .null) ∧
    (get_vms c).1 = [⟨"text", Json.dumps (.arr (gvEntries c))⟩] := by
  refine ⟨rfl, ?_, ?_, rfl⟩
  · simp [get_vms, writeCalls, List.filter, isWriteCall, List.filter_eq_nil_iff]
  · intro e he
    simp only [gvEntries, List.mem_flatten, List.mem_map] at he
    obtain ⟨l, ⟨n, hn, rfl⟩, he⟩ := he
    obtain ⟨vm, hvm, rfl⟩ := List.mem_map.mp he
    simp [vmEntry, objGet, List.find?]

theorem C10_witness :
    ∀ e ∈ gvEntries cFail, objGet e "cpus" = some Json.null :=
  (C10_get_vms_reads_only cFail).2.2.1

theorem get_vms_coarse (c : Cluster) :
    get_vms c =
      ([⟨"text",
          Json.dumps (.arr (((coarseView c).map (fun p => p.2.map (vmEntry p.1))).flatten))⟩],
       ⟨.get, ["nodes"]⟩ ::
         (coarseView c).map (fun p => (⟨.get, ["nodes", p.1, "qemu"]⟩ : ApiCall))) := by
  simp [get_vms, gvEntries, coarseView, List.map_map, Function.comp_def]

/-- C3: when the coarse per-node listings succeed but some per-VM detailed
(config) lookup fails, `get_vms` still returns one entry per VM per node,
each carrying only the coarse fields; and the listing is a function of the
coarse state alone, so an identical retry returns the same entries. -/
theorem C3_get_vms_coarse_fallback (c : Cluster) (h : hasDetailFailure c = true) :
    (∃ t, (get_vms c).1 = [⟨"text", t⟩] ∧ Json.parse t = some (.arr (gvEntries c))) ∧
    (gvEntries c).length = ((coarseView c).map (fun p => p.2.length)).sum ∧
    (∀ e ∈ gvEntries c,
      objKeys e = ["vmid", "name", "status", "node", "cpus", "mem", "maxmem"]) ∧
    (∀ c' : Cluster, coarseView c' = coarseView c → get_vms c' = get_vms c) := by
  refine ⟨⟨Json.dumps (.arr (gvEntries c)), rfl, Json.parse_dumps _⟩, ?_, ?_, ?_⟩
  · simp [gvEntries, coarseView, List.length_flatten, List.map_map, Function.comp_def]
  · intro e he
    simp only [gvEntries, List.mem_flatten, List.mem_map] at he
    obtain ⟨l, ⟨n, hn, rfl⟩, he⟩ := he
    obtain ⟨vm, hvm, rfl⟩ := List.mem_map.mp he
    simp [vmEntry, objKeys]
  · intro c' hcv
    rw [get_vms_coarse c', get_vms_coarse c, hcv]

theorem C3_witness :
    hasDetailFailure cFail = true ∧
    (∃ t, (get_vms cFail).1 = [⟨"text", t⟩] ∧
      Json.parse t = some (.arr (gvEntries cFail))) :=
  ⟨rfl, (C3_get_vms_coarse_fallback cFail rfl).1⟩

/-- C9: a JSON-shaped read response is serialised into the single text
block of the envelope with no loss or reordering: decoding the text
recovers a value equal to the source response, both for `get_storage` and
for the generic passthrough in GET mode. -/
theorem C9_read_roundtrip (raw : Json) (path : String)
    (params data : List (String × Json)) (hp : path ≠ "") :
    (∃ t, (get_storage ⟨raw⟩).1 = [⟨"text", t⟩] ∧ Json.parse t = some raw) ∧
    (∃ t, (proxmox_request ⟨raw⟩ "GET" path params data).1 = .ok [⟨"text", t⟩] ∧
      Json.parse t = some raw) := by
  refine ⟨⟨Json.dumps raw, rfl, Json.parse_dumps raw⟩,
    ⟨Json.dumps raw, ?_, Json.parse_dumps raw⟩⟩
  have hm : upperStr "GET" = "GET" := rfl
  simp [proxmox_request, hp, hm]

theorem C9_witness :
    ("nodes" : String) ≠ "" ∧
    (∃ t, (get_storage ⟨.obj [("storage", .str "local"), ("total", .num 42)]⟩).1 =
        [⟨"text", t⟩] ∧
      Json.parse t = some (.obj [("storage", .str "local"), ("total", .num 42)])) :=
  ⟨by decide,
   (C9_read_roundtrip (.obj [("storage", .str "local"), ("total", .num 42)])
     "nodes" [] [] (by decide)).1⟩

/-- C8: with `storage` unspecified, `create_vm` auto-detects storage in
exactly the priority order local-lvm (supporting images), then vm-storage
(supporting images), then the first storage in list order supporting
images; if no storage supports images the call fails without issuing the
creation call. -/
theorem C8_storage_priority (o : CreateOracle) (node vmid name : String)
    (ostype : Option String) (msg : String)
    (hconf : o.configResp = .error msg)
    (hmsg : strContains (lowerStr msg) "does not exist" = true) :
    ((∃ s ∈ o.storageList, s.storage = "local-lvm" ∧ hasImages s = true) →
      autoDetectStorage o.storageList = some "local-lvm") ∧
    ((¬ ∃ s ∈ o.storageList, s.storage = "local-lvm" ∧ hasImages s = true) →
     (∃ s ∈ o.storageList, s.storage = "vm-storage" ∧ hasImages s = true) →
      autoDetectStorage o.storageList = some "vm-storage") ∧
    ((¬ ∃ s ∈ o.storageList, s.storage = "local-lvm" ∧ hasImages s = true) →
     (¬ ∃ s ∈ o.storageList, s.storage = "vm-storage" ∧ hasImages s = true) →
      autoDetectStorage o.storageList =
        (o.storageList.find? hasImages).map (fun s => s.storage)) ∧
    ((∀ s ∈ o.storageList, hasImages s = false) →
      create_vm o node vmid name none ostype =
        (.error ⟨.invalidArgument, "No suitable storage found for VM images"⟩,
         [configGetCall node vmid, storageGetCall node])) := by
  constructor
  · rintro ⟨s, hmem, hname, himg⟩
    have hne : o.storageList.find? (fun s => s.storage == "local-lvm" && hasImages s) ≠ none := by
      intro hn
      exact List.find?_eq_none.mp hn s hmem (by simp [hname, himg])
    obtain ⟨s', hs'⟩ := Option.ne_none_iff_exists'.mp hne
    have hp' := List.find?_some hs'
    simp only [Bool.and_eq_true, beq_iff_eq] at hp'
    simp [autoDetectStorage, hs', hp'.1]
  constructor
  · intro hno hex
    have h1 : o.storageList.find? (fun s => s.storage == "local-lvm" && hasImages s) = none := by
      rw [List.find?_eq_none]
      intro x hx hPx
      simp only [Bool.and_eq_true, beq_iff_eq] at hPx
      exact hno ⟨x, hx, hPx.1, hPx.2⟩
    obtain ⟨s, hmem, hname, himg⟩ := hex
    have hne2 : o.storageList.find? (fun s => s.storage == "vm-storage" && hasImages s) ≠ none := by
      intro hn
      exact List.find?_eq_none.mp hn s hmem (by simp [hname, himg])
    obtain ⟨s', hs'⟩ := Option.ne_none_iff_exists'.mp hne2
    have hp' := List.find?_some hs'
    simp only [Bool.and_eq_true, beq_iff_eq] at hp'
    simp [autoDetectStorage, h1, hs', hp'.1]
  constructor
  · intro hno1 hno2
    have h1 : o.storageList.find? (fun s => s.storage == "local-lvm" && hasImages s) = none := by
      rw [List.find?_eq_none]
      intro x hx hPx
      simp only [Bool.and_eq_true, beq_iff_eq] at hPx
      exact hno1 ⟨x, hx, hPx.1, hPx.2⟩
    have h2 : o.storageList.find? (fun s => s.storage == "vm-storage" && hasImages s) = none := by
      rw [List.find?_eq_none]
      intro x hx hPx
      simp only [Bool.and_eq_true, beq_iff_eq] at hPx
      exact hno2 ⟨x, hx, hPx.1, hPx.2⟩
    cases h3 : o.storageList.find? hasImages with
    | none => simp [autoDetectStorage, h1, h2, h3]
    | some s => simp [autoDetectStorage, h1, h2, h3]
  · intro hall
    have h1 : o.storageList.find? (fun s => s.storage == "local-lvm" && hasImages s) = none := by
      rw [List.find?_eq_none]
      intro x hx hPx
      simp only [Bool.and_eq_true, beq_iff_eq] at hPx
      exact absurd hPx.2 (by simp [hall x hx])
    have h2 : o.storageList.find? (fun s => s.storage == "vm-storage" && hasImages s) = none := by
      rw [List.find?_eq_none]
      intro x hx hPx
      simp only [Bool.and_eq_true, beq_iff_eq] at hPx
      exact absurd hPx.2 (by simp [hall x hx])
    have h3 : o.storageList.find? hasImages = none := by
      rw [List.find?_eq_none]
      intro x hx hPx
      exact absurd hPx (by simp [hall x hx])
    have hAD : autoDetectStorage o.storageList = none := by
      simp [autoDetectStorage, h1, h2, h3]
    simp [create_vm, hconf, hmsg, hAD]

theorem C8_witness :
    oCreateNoImages.configResp =
      .error "Configuration file 'nodes/pve/qemu-server/200.conf' does not exist" ∧
    strContains
      (lowerStr "Configuration file 'nodes/pve/qemu-server/200.conf' does not exist")
      "does not exist" = true ∧
    create_vm oCreateNoImages "pve" "200" "vm" none none =
      (.error ⟨.invalidArgument, "No suitable storage found for VM images"⟩,
       [configGetCall "pve" "200", storageGetCall "pve"]) :=
  ⟨rfl, by decide,
   (C8_storage_priority oCreateNoImages "pve" "200" "vm" none _ rfl
     (by decide)).2.2.2 (by decide)⟩

/-- C4 counterexample: `create_user` is a state-changing operation cited by
the claim, yet its envelope is the raw response serialised unwrapped, not
`{"task": raw_response}`. -/
theorem C4_counterexample :
    writeOpText .create_user (.str "UPID") = Json.dumps (.str "UPID") ∧
    writeOpText .create_user (.str "UPID") ≠
      Json.dumps (.obj [("task", .str "UPID")]) := by
  exact ⟨rfl, by decide⟩

/-- C4 (amended): write wrappers are not uniformly task-wrapped: the VM
lifecycle writes, `service_action` and `vzdump` wrap the raw response as
`{"task": raw_response}`, while the access/pool/firewall/HA/replication/
network/storage-content write wrappers return the raw response serialised
unwrapped (and the two shapes never coincide); read operations return
exactly the fields the hypervisor returned. -/
theorem C4_write_shaping (op : WriteOp) (raw : Json) :
    writeOpText op raw =
      (if taskWrapped op then Json.dumps (.obj [("task", raw)]) else Json.dumps raw) ∧
    (taskWrapped op = false →
      writeOpText op raw ≠ Json.dumps (.obj [("task", raw)])) ∧
    (∀ o : RespOracle, (get_storage o).1 = [⟨"text", Json.dumps o.resp⟩] ∧
      (list_users o).1 = [⟨"text", Json.dumps o.resp⟩]) := by
  have h1 : writeOpText op raw =
      (if taskWrapped op then Json.dumps (.obj [("task", raw)]) else Json.dumps raw) := by
    cases op <;> rfl
  refine ⟨h1, ?_, fun o => ⟨rfl, rfl⟩⟩
  intro hf heq
  rw [h1, hf] at heq
  simp only [if_false, Bool.false_eq_true] at heq
  exact json_ne_selfwrap raw (Json.dumps_inj heq)

theorem C4_witness :
    taskWrapped .create_user = false ∧
    writeOpText .create_user .null ≠ Json.dumps (.obj [("task", .null)]) :=
  ⟨rfl, (C4_write_shaping .create_user .null).2.1 rfl⟩

end ProxmoxMCP
